import Mathlib

/-!
Shallow embedding of the rfetch renderer and its helpers (src/main.rs,
src/helpers.rs).  Rust `String`s become Lean `String`s; `len()` is the
character count (`String.length`), which coincides with Rust's byte count on
the ASCII data the program manipulates.  `u8`/`u64` become `Nat` with explicit
range checks where the source checks them.  Fallible Rust code whose failure
path is a `panic!` (an `unwrap()`) is modelled with `Option`, `none` standing
for the panic/abort.
-/

namespace Rfetch

/-- Embedding of Rust `" ".repeat(n)`: a string of `n` spaces. -/
def spaces (n : Nat) : String := String.mk (List.replicate n ' ')

/-- Splits a character list at every newline character; the segment after the
last newline is the final element (so the result is always non-empty). -/
def splitNl : List Char → List (List Char)
  | [] => [[]]
  | c :: rest =>
    if c = '\n' then [] :: splitNl rest
    else
      match splitNl rest with
      | [] => [[c]]
      | l :: ls => (c :: l) :: ls

/-- Removes one trailing carriage return, as Rust does for a `\r\n` ending. -/
def stripCr (l : List Char) : List Char :=
  if l.getLast? = some '\r' then l.dropLast else l

/-- Embedding of Rust `str::lines()`: segments are separated by `'\n'`; every
segment that was terminated by a `'\n'` loses one trailing `'\r'` (a `\r\n`
line ending); a final empty segment (the optional final line ending) yields no
line; a bare trailing `'\r'` on the last unterminated segment is kept. -/
def rustLines (s : String) : List String :=
  let parts := splitNl s.data
  let body := parts.dropLast.map stripCr
  let lastPart := (parts.getLast?).getD []
  let allParts := if lastPart = [] then body else body ++ [lastPart]
  allParts.map String.mk

/-- The `RESET_CODE` static of main.rs: `"\x1b[0m"`. -/
def RESET_CODE : String := "\x1b[0m"

/-- Embedding of `color_ascii_art` (main.rs:112-118):
`ascii_art.lines().map(|line| format!("{}{}{}{}", prefix, color_code, line,
RESET_CODE))` with `prefix = " ".repeat(spacing)`.  The static `RESET_CODE` is
passed explicitly as the last argument `reset_code`. -/
def color_ascii_art (ascii_art color_code : String) (spacing : Nat)
    (reset_code : String) : List String :=
  let pre := spaces spacing
  (rustLines ascii_art).map (fun line => pre ++ color_code ++ line ++ reset_code)

/-- Embedding of `.iter().max().unwrap_or(0)` on a list of `Nat`. -/
def listMaxD (l : List Nat) : Nat := l.foldl max 0

/-- The `max_ascii_len` computation of `print_stuff` (main.rs:206-210):
`ascii_lines.iter().map(|line| line.len() - spacing).max().unwrap_or(0)`.
The subtraction is `Nat` (truncating) subtraction; on lines produced by
`color_ascii_art` with the same spacing it never underflows. -/
def max_ascii_len (ascii_lines : List String) (spacing : Nat) : Nat :=
  listMaxD (ascii_lines.map (fun line => line.length - spacing))

/-- The `offset` of `print_stuff` (main.rs:211):
`max_ascii_len + 5 + spacing`. -/
def offset_of (ascii_lines : List String) (spacing : Nat) : Nat :=
  max_ascii_len ascii_lines spacing + 5 + spacing

/-- One loop iteration of `print_stuff` (main.rs:215-224): the row printed for
index `i`, given the precomputed `offset`.  `art_line`/`info_line` fall back
to the empty string when the index is out of range, and the pad width is
`offset.saturating_sub(art_line.len())`. -/
def renderRow (ascii_lines sys_info : List String) (offset i : Nat) : String :=
  let art_line := ascii_lines.getD i ""
  let info_line := sys_info.getD i ""
  let sp := spaces (offset - art_line.length)
  art_line ++ sp ++ info_line

/-- Embedding of `print_stuff` (main.rs:205-225) as the ordered list of lines
it prints: one row per index `0 ≤ i < max(ascii_lines.len(), sys_info.len())`,
with the offset computed once for the whole block. -/
def print_stuff (ascii_lines sys_info : List String) (spacing : Nat) :
    List String :=
  (List.range (max ascii_lines.length sys_info.length)).map
    (renderRow ascii_lines sys_info (offset_of ascii_lines spacing))

/-- Embedding of Rust `str::trim()` restricted to ASCII whitespace: drops
leading and trailing whitespace characters. -/
def rustTrim (s : String) : String :=
  String.mk (((s.data.dropWhile Char.isWhitespace).reverse.dropWhile
    Char.isWhitespace).reverse)

/-- Embedding of `read_file_trim` (helpers.rs:31-33):
`fs::read_to_string(path).unwrap().trim().to_string()`.  The filesystem is the
function `readFile`; `readFile path = none` models an unreadable path, and the
result `none` models the `unwrap()` panic that then aborts the program. -/
def read_file_trim (readFile : String → Option String) (path : String) :
    Option String :=
  match readFile path with
  | none => none
  | some content => some (rustTrim content)

/-- Embedding of Rust `str::split_whitespace()`: maximal runs of
non-whitespace characters, in order. -/
def splitWsAux : List Char → List Char → List String
  | [], acc => if acc = [] then [] else [String.mk acc.reverse]
  | c :: rest, acc =>
    if c.isWhitespace then
      if acc = [] then splitWsAux rest []
      else String.mk acc.reverse :: splitWsAux rest []
    else splitWsAux rest (c :: acc)

/-- Rust `split_whitespace` on a string. -/
def splitWhitespaceR (s : String) : List String := splitWsAux s.data []

/-- True iff every character is a decimal digit. -/
def isDigits : List Char → Bool
  | [] => true
  | c :: cs => c.isDigit && isDigits cs

/-- Decimal value of a digit list (most significant first). -/
def natOfDigits : List Char → Nat → Nat
  | [], acc => acc
  | c :: cs, acc => natOfDigits cs (acc * 10 + (c.toNat - 48))

/-- Embedding of Rust `str::parse::<u64>()`: an optional leading `+`, then a
non-empty run of decimal digits, valued below `2^64`; `none` is `Err`. -/
def parseU64 (s : String) : Option Nat :=
  let t := if s.data.head? = some '+' then s.data.tail else s.data
  if t ≠ [] && isDigits t then
    let n := natOfDigits t 0
    if n < 2 ^ 64 then some n else none
  else none

/-- Embedding of Rust `str::parse::<u8>()`: an optional leading `+`, then a
non-empty run of decimal digits, valued at most `255`; `none` is `Err`. -/
def parse_u8 (s : String) : Option Nat :=
  let t := if s.data.head? = some '+' then s.data.tail else s.data
  if t ≠ [] && isDigits t then
    let n := natOfDigits t 0
    if n ≤ 255 then some n else none
  else none

/-- Embedding of Rust `str::starts_with`: `rStartsWith s p` is true iff `p`
is a prefix of `s`. -/
def rStartsWith (s p : String) : Bool := p.data.isPrefixOf s.data

/-- The inner `for (i, &field) in fields.iter().enumerate()` loop body of
`read_meminfo_fields` (helpers.rs:7-11) over one line: whenever the line
starts with a field, `results[i]` is set to
`line.split_whitespace().nth(1).unwrap().parse().unwrap()`; `none` models
either `unwrap()` panicking (no second token, or an unparsable number). -/
def updateFields (fields : List String) (line : String) (results : List Nat) :
    Option (List Nat) :=
  fields.enum.foldlM
    (fun res p =>
      if rStartsWith line p.2 then
        match (splitWhitespaceR line)[1]? with
        | none => none
        | some tok =>
          match parseU64 tok with
          | none => none
          | some v => some (res.set p.1 v)
      else some res)
    results

/-- Embedding of `read_meminfo_fields` (helpers.rs:4-14).  `meminfo` is the
content of `/proc/meminfo`, `none` when the file is missing or unreadable; the
result `none` models a panic: `fs::read_to_string("/proc/meminfo").unwrap()`
aborts on a read failure, and `.nth(1).unwrap().parse().unwrap()` aborts on a
malformed matching line.  Fields never matched keep their initial `0`. -/
def read_meminfo_fields (meminfo : Option String) (fields : List String) :
    Option (List Nat) :=
  match meminfo with
  | none => none
  | some content =>
    (rustLines content).foldlM
      (fun res line => updateFields fields line res)
      (List.replicate fields.length 0)

/-- Embedding of `memory_usage` (main.rs:40-51).  The byte formatter
`format_bytes` (floating-point rendering, helpers.rs:16-29) is abstracted as
the parameter `fmt`, since no claim depends on the rendered digits.
`values.get(i).copied().unwrap_or(0)` is `List.getD i 0`, and
`total.saturating_sub(available)` is `Nat` subtraction.  The result is `none`
exactly when `read_meminfo_fields` panics. -/
def memory_usage (fmt : Nat → String) (meminfo : Option String) :
    Option String :=
  match read_meminfo_fields meminfo ["MemTotal:", "MemAvailable:"] with
  | none => none
  | some values =>
    let total := values.getD 0 0
    let available := values.getD 1 0
    let used := total - available
    some ("Memory: " ++ fmt (used * 1024) ++ "/" ++ fmt (total * 1024))

/-- The mutable settings of `main` (main.rs:240-263) that the argument loop
updates: the art text, the spacing and the ANSI color string. -/
structure Config where
  ascii_art : String
  spacing : Nat
  ansi_color : String
deriving DecidableEq, Repr

/-- The initial settings of `main`: the default art and color are parameters
(the built-in art literal, main.rs:240-254, and the color resolved from the
os-release file, main.rs:257-263); `spacing` starts at `3` (main.rs:255,
`let mut spacing: u8 = 3`). -/
def init_config (art color : String) : Config :=
  { ascii_art := art, spacing := 3, ansi_color := color }

/-- Embedding of the manual argument loop of `main` (main.rs:266-288).
`readFile` is the filesystem seen by `read_file_trim`; the result is `none`
when `read_file_trim` panics (unreadable `--config` path), and otherwise the
final settings.  A recognised value-taking flag with no following value does
nothing (the inner `if let Some(..) = iter.next()` fails and the loop ends);
an unparsable `--spacing` value leaves `spacing` unchanged; an unknown
argument is skipped. -/
def parse_args (readFile : String → Option String) :
    List String → Config → Option Config
  | [], cfg => some cfg
  | arg :: rest, cfg =>
    if arg = "--config" then
      match rest with
      | [] => some cfg
      | path :: rest2 =>
        match read_file_trim readFile path with
        | none => none
        | some art => parse_args readFile rest2 { cfg with ascii_art := art }
    else if arg = "--spacing" then
      match rest with
      | [] => some cfg
      | v :: rest2 =>
        match parse_u8 v with
        | some n => parse_args readFile rest2 { cfg with spacing := n }
        | none => parse_args readFile rest2 cfg
    else if arg = "--color" then
      match rest with
      | [] => some cfg
      | c :: rest2 => parse_args readFile rest2 { cfg with ansi_color := c }
    else
      parse_args readFile rest cfg

/-! Helper lemmas about the embedded definitions. -/

theorem spaces_length (n : Nat) : (spaces n).length = n := by
  simp [spaces, String.length]

theorem foldl_max_eq (l : List Nat) (a : Nat) :
    l.foldl max a = max a (l.foldl max 0) := by
  induction l generalizing a with
  | nil => simp
  | cons x xs ih =>
    simp only [List.foldl_cons]
    rw [ih (max a x), ih (max 0 x), Nat.zero_max]
    omega

theorem listMaxD_cons (x : Nat) (l : List Nat) :
    listMaxD (x :: l) = max x (listMaxD l) := by
  simp only [listMaxD, List.foldl_cons, Nat.zero_max]
  exact foldl_max_eq l x

theorem le_listMaxD {l : List Nat} {x : Nat} (hx : x ∈ l) : x ≤ listMaxD l := by
  induction l with
  | nil => cases hx
  | cons y ys ih =>
    rw [listMaxD_cons]
    rcases List.mem_cons.mp hx with rfl | h
    · exact Nat.le_max_left ..
    · exact (ih h).trans (Nat.le_max_right ..)

theorem listMaxD_attained {l : List Nat} (h : l ≠ []) :
    ∃ x ∈ l, listMaxD l = x := by
  induction l with
  | nil => exact absurd rfl h
  | cons y ys ih =>
    rw [listMaxD_cons]
    rcases eq_or_ne ys [] with rfl | hne
    · exact ⟨y, List.mem_cons_self .., by simp [listMaxD]⟩
    · obtain ⟨x, hx, he⟩ := ih hne
      rcases Nat.le_total y (listMaxD ys) with hle | hle
      · exact ⟨x, List.mem_cons_of_mem _ hx, by rw [Nat.max_eq_right hle, he]⟩
      · exact ⟨y, List.mem_cons_self .., Nat.max_eq_left hle⟩

theorem print_stuff_length (a b : List String) (s : Nat) :
    (print_stuff a b s).length = max a.length b.length := by
  simp [print_stuff]

theorem print_stuff_getElem? (a b : List String) (s i : Nat)
    (hi : i < max a.length b.length) :
    (print_stuff a b s)[i]? = some (renderRow a b (offset_of a s) i) := by
  unfold print_stuff
  rw [List.getElem?_map, List.getElem?_range hi]
  rfl

theorem getD_empty_of_le {l : List String} {i : Nat} (h : l.length ≤ i) :
    l.getD i "" = "" := by
  simp [List.getD, List.getElem?_eq_none h]

theorem decorated_length (s : Nat) (ca line rc : String) :
    (spaces s ++ ca ++ line ++ rc).length
      = s + ca.length + line.length + rc.length := by
  simp [String.length_append, spaces_length]

/-! Claim theorems. -/

/-- C1: on raw art lines `"AA"` and `"B"`, spacing 1, color-activation `"C"`,
reset `"R"`, info `["x", "y", "z"]`, decoration yields `" CAAR"` (length 5) and
`" CBR"` (length 4), the offset is 10, and the renderer emits exactly the
three rows `" CAAR" ++ 5 spaces ++ "x"`, `" CBR" ++ 6 spaces ++ "y"`, and
`10 spaces ++ "z"`. -/
theorem c1_concrete_scenario :
    color_ascii_art "AA\nB" "C" 1 "R" = [" CAAR", " CBR"]
    ∧ (" CAAR" : String).length = 5 ∧ (" CBR" : String).length = 4
    ∧ offset_of [" CAAR", " CBR"] 1 = 10
    ∧ print_stuff [" CAAR", " CBR"] ["x", "y", "z"] 1 =
        [" CAAR     x", " CBR      y", "          z"] := by
  decide

/-- C2: for a (decorated) art block of `A` lines and an info block of `B`
lines, `print_stuff` emits exactly `max A B` rows in row order; every row
`i` is present with art cell `a.getD i ""` and info cell `b.getD i ""`, and a
missing cell is the empty string rather than an omitted row. -/
theorem c2_row_count (a b : List String) (s : Nat)
    (hdec : ∀ l ∈ a, s ≤ l.length) :
    (print_stuff a b s).length = max a.length b.length
    ∧ (∀ i, i < max a.length b.length →
        (print_stuff a b s)[i]? =
          some (a.getD i "" ++ spaces (offset_of a s - (a.getD i "").length)
            ++ b.getD i ""))
    ∧ (∀ i, a.length ≤ i → a.getD i "" = "")
    ∧ (∀ i, b.length ≤ i → b.getD i "" = "") := by
  refine ⟨print_stuff_length a b s, fun i hi => ?_, fun i hi => ?_,
    fun i hi => ?_⟩
  · rw [print_stuff_getElem? a b s i hi]; rfl
  · exact getD_empty_of_le hi
  · exact getD_empty_of_le hi

/-- C3: the offset is `max_ascii_len + 5 + s`, where `max_ascii_len` is the
maximum over all decorated lines of the stored length minus `s` — an upper
bound on, and attained by, the per-line values, and `0` for an empty art
block — and every row of `print_stuff`, for every info block, is built from
this same `offset_of a s`, which takes no info argument: runs with the same
art and spacing but different info blocks use the same offset. -/
theorem c3_offset_formula (a : List String) (s : Nat)
    (hdec : ∀ l ∈ a, s ≤ l.length) :
    (∀ l ∈ a, l.length - s ≤ max_ascii_len a s)
    ∧ (a = [] → max_ascii_len a s = 0)
    ∧ (a ≠ [] → ∃ l ∈ a, max_ascii_len a s = l.length - s)
    ∧ offset_of a s = max_ascii_len a s + 5 + s
    ∧ ∀ (info : List String) (i : Nat), i < max a.length info.length →
        (print_stuff a info s)[i]? =
          some (a.getD i "" ++ spaces (offset_of a s - (a.getD i "").length)
            ++ info.getD i "") := by
  refine ⟨?_, ?_, ?_, rfl, fun info i hi => ?_⟩
  · intro l hl
    exact le_listMaxD (List.mem_map_of_mem _ hl)
  · intro h
    subst h
    rfl
  · intro h
    have hne : a.map (fun line => line.length - s) ≠ [] := by
      simpa [List.map_eq_nil_iff] using h
    obtain ⟨x, hx, he⟩ := listMaxD_attained hne
    obtain ⟨l, hl, rfl⟩ := List.mem_map.mp hx
    exact ⟨l, hl, he⟩
  · rw [print_stuff_getElem? a info s i hi]; rfl

/-- C4: for spacing `s ≤ 255` and a non-empty raw art block, decoration
produces exactly one line per raw line, of the form
`spaces s ++ color_code ++ raw_line ++ reset_code` (each line gets its own
activation/reset pair, the raw content preserved exactly), and every
decorated line's stored length is
`s + len(color_code) + len(raw_line) + len(reset_code)`. -/
theorem c4_decoration_shape (s : Nat) (hs : s ≤ 255) (ca rc art : String)
    (hne : rustLines art ≠ []) :
    (color_ascii_art art ca s rc).length = (rustLines art).length
    ∧ color_ascii_art art ca s rc
        = (rustLines art).map (fun line => spaces s ++ ca ++ line ++ rc)
    ∧ ∀ l ∈ color_ascii_art art ca s rc,
        ∃ line, line ∈ rustLines art ∧ l = spaces s ++ ca ++ line ++ rc
          ∧ l.length = s + ca.length + line.length + rc.length := by
  refine ⟨by simp [color_ascii_art], rfl, fun l hl => ?_⟩
  simp only [color_ascii_art, List.mem_map] at hl
  obtain ⟨line, hline, rfl⟩ := hl
  exact ⟨line, hline, rfl, decorated_length s ca line rc⟩

/-- C5: in every row, the pad is `offset - len(art_line)` with saturating
subtraction: the emitted row is the full art cell followed by the pad and the
info cell (no truncation), `len(art_line) + pad = offset` whenever
`len(art_line) ≤ offset`, and the pad is `0` when `len(art_line) > offset`. -/
theorem c5_padding (a b : List String) (s i : Nat)
    (hdec : ∀ l ∈ a, s ≤ l.length) (hi : i < max a.length b.length) :
    (print_stuff a b s)[i]? =
      some (a.getD i "" ++ spaces (offset_of a s - (a.getD i "").length)
        ++ b.getD i "")
    ∧ ((a.getD i "").length ≤ offset_of a s →
        (a.getD i "").length + (offset_of a s - (a.getD i "").length)
          = offset_of a s)
    ∧ (offset_of a s < (a.getD i "").length →
        offset_of a s - (a.getD i "").length = 0) := by
  refine ⟨?_, fun h => by omega, fun h => by omega⟩
  rw [print_stuff_getElem? a b s i hi]
  rfl

/-- C6: the claim says an unreadable `--config` path falls back to the
built-in default art silently; in the code, `read_file_trim` calls
`fs::read_to_string(path).unwrap()`, so an unreadable path panics and aborts
the program (modelled as `none`), both in the helper and through the
`--config` arm of the argument loop. -/
theorem c6_unreadable_config_aborts :
    read_file_trim (fun _ => none) "/bad/path" = none
    ∧ parse_args (fun _ => none) ["--config", "/bad/path"]
        (init_config "ART" "0;37") = none :=
  ⟨rfl, rfl⟩

/-- C7: the claim says every failure of a fact's data source is recovered
locally and the program never aborts during fact collection; in the code,
`read_meminfo_fields` calls `.unwrap()` on the `/proc/meminfo` read and on
the numeric parse, so a missing/unreadable meminfo file or an unparsable
numeric field panics and aborts (modelled as `none`), and `memory_usage`
propagates the abort. -/
theorem c7_meminfo_failure_aborts :
    read_meminfo_fields none ["MemTotal:", "MemAvailable:"] = none
    ∧ read_meminfo_fields (some "MemTotal: abc kB")
        ["MemTotal:", "MemAvailable:"] = none
    ∧ memory_usage (fun _ => "") none = none :=
  ⟨rfl, by decide, rfl⟩

/-- C8: a `--spacing` value that does not parse as an integer in `[0, 255]`
leaves the spacing at its previously set value and argument parsing continues
with the remaining arguments; the initial spacing of `main` is 3. -/
theorem c8_bad_spacing_ignored (rf : String → Option String) (v : String)
    (hv : parse_u8 v = none) (post : List String) (cfg : Config) :
    parse_args rf ("--spacing" :: v :: post) cfg = parse_args rf post cfg
    ∧ (∀ art color : String, (init_config art color).spacing = 3) := by
  constructor
  · have h1 : parse_args rf ("--spacing" :: v :: post) cfg =
        match parse_u8 v with
        | some n => parse_args rf post { cfg with spacing := n }
        | none => parse_args rf post cfg := rfl
    rw [h1, hv]
  · intro art color
    rfl

/-- C9: every line produced by decoration with spacing `s` begins with `s`
literal spaces, so its stored length is at least `s` and the subtraction
`len - s` performed by the offset computation does not underflow
(`len - s + s = len`). -/
theorem c9_no_underflow (art ca rc : String) (s : Nat) :
    ∀ l ∈ color_ascii_art art ca s rc,
      (∃ rest, l = spaces s ++ rest) ∧ s ≤ l.length
        ∧ l.length - s + s = l.length := by
  intro l hl
  simp only [color_ascii_art, List.mem_map] at hl
  obtain ⟨line, hline, rfl⟩ := hl
  have hle : s ≤ (spaces s ++ ca ++ line ++ rc).length := by
    rw [decorated_length]
    omega
  refine ⟨⟨ca ++ line ++ rc, ?_⟩, hle, Nat.sub_add_cancel hle⟩
  simp [String.append_assoc]

/-- C10: a recognised value-taking flag (`--config`, `--spacing`, `--color`)
appearing as the last argument with no following value is silently ignored:
parsing terminates normally and the settings keep their prior values. -/
theorem c10_trailing_flag_ignored (rf : String → Option String)
    (cfg : Config) :
    parse_args rf ["--config"] cfg = some cfg
    ∧ parse_args rf ["--spacing"] cfg = some cfg
    ∧ parse_args rf ["--color"] cfg = some cfg :=
  ⟨rfl, rfl, rfl⟩

/-! Witnesses: each applies its claim theorem at a concrete input. -/

theorem c2_row_count_witness :
    (∀ l ∈ ([" CAAR", " CBR"] : List String), 1 ≤ l.length)
    ∧ (print_stuff [" CAAR", " CBR"] ["x", "y", "z"] 1).length = 3 :=
  ⟨by decide,
    ((c2_row_count [" CAAR", " CBR"] ["x", "y", "z"] 1 (by decide)).1).trans
      (by decide)⟩

theorem c3_offset_formula_witness :
    (∀ l ∈ ([" CAAR", " CBR"] : List String), 1 ≤ l.length)
    ∧ offset_of [" CAAR", " CBR"] 1 = max_ascii_len [" CAAR", " CBR"] 1 + 5 + 1 :=
  ⟨by decide, (c3_offset_formula [" CAAR", " CBR"] 1 (by decide)).2.2.2.1⟩

theorem c4_decoration_shape_witness :
    (1 ≤ 255 ∧ rustLines "AA\nB" ≠ [])
    ∧ (color_ascii_art "AA\nB" "C" 1 "R").length = (rustLines "AA\nB").length :=
  ⟨⟨by decide, by decide⟩,
    (c4_decoration_shape 1 (by decide) "C" "R" "AA\nB" (by decide)).1⟩

theorem c5_padding_witness :
    ((∀ l ∈ ([" CAAR", " CBR"] : List String), 1 ≤ l.length)
      ∧ 0 < max ([" CAAR", " CBR"] : List String).length
          (["x", "y", "z"] : List String).length)
    ∧ (print_stuff [" CAAR", " CBR"] ["x", "y", "z"] 1)[0]? =
        some " CAAR     x" :=
  ⟨⟨by decide, by decide⟩,
    ((c5_padding [" CAAR", " CBR"] ["x", "y", "z"] 1 0 (by decide)
      (by decide)).1).trans (by decide)⟩

theorem c8_bad_spacing_ignored_witness :
    parse_u8 "abc" = none
    ∧ parse_args (fun _ => none) ["--spacing", "abc"] (init_config "A" "36")
        = parse_args (fun _ => none) [] (init_config "A" "36") :=
  ⟨by decide,
    (c8_bad_spacing_ignored (fun _ => none) "abc" (by decide) []
      (init_config "A" "36")).1⟩

theorem c9_no_underflow_witness :
    (" CAAR" : String) ∈ color_ascii_art "AA\nB" "C" 1 "R"
    ∧ 1 ≤ (" CAAR" : String).length :=
  ⟨by decide, (c9_no_underflow "AA\nB" "C" "R" 1 " CAAR" (by decide)).2.1⟩

end Rfetch

